import Mathlib

/-! Shallow embedding of `src/prj_pystray.py` (PrjTrx): a tray application
that lets the user pick a project / work-package, shows an icon for it and
appends a line to a log file on every change.

Modelling conventions:
* Python strings are Lean `String`s; character-level operations work on `.data`.
* `OrderedDict` is an insertion-ordered association list (`odInsert` keeps the
  original slot on overwrite, as `OrderedDict` does).
* The filesystem is a list `fs` of paths of existing files; `Path.exists` is
  membership in `fs`.
* `PIL.Image.open` is modelled by `imageOpen`: the opened image is identified
  with the path it was opened from; opening `None` raises (`imageError`).
* Exceptions are explicit: fallible operations return an `Option PyError`
  next to the state (`none` means normal return) or an `Except PyError`.
* `datetime.now().strftime(...)` is an opaque timestamp string parameter `ts`.
* The log sink is the `log` field of the state; a sink whose append would
  fail is modelled by the flag `sinkOk = false`.
-/

namespace PrjTrx

/-- Helper for Python `str.split` with a one-character separator: returns the
segment before the first separator and the remaining segments. -/
def splitAux (c : Char) : List Char → List Char × List (List Char)
  | [] => ([], [])
  | x :: xs =>
    let r := splitAux c xs
    if x = c then ([], r.1 :: r.2) else (x :: r.1, r.2)

/-- `s.split(sep)` for a one-character separator: always returns at least one
segment; `"".split(sep) == [""]`. -/
def splitOnChar (c : Char) (l : List Char) : List (List Char) :=
  (splitAux c l).1 :: (splitAux c l).2

/-- `get_id_name` (src line 215): split the identifier on `-`, keep the first
segment as id and the last segment as display name. -/
def get_id_name (prj : String) : String × String :=
  let parts := splitOnChar '-' prj.data
  (String.mk (parts.headD []), String.mk (parts.getLastD []))

/-- Index of the last occurrence of `c` in `l` (Python `str.rfind`), `none`
when absent. -/
def rfindIdx (c : Char) : List Char → Option Nat
  | [] => none
  | x :: xs =>
    match rfindIdx c xs with
    | some i => some (i + 1)
    | none => if x = c then some 0 else none

/-- `pathlib.PurePath.suffix` for a bare file name (no directory separators):
the part from the last dot on, provided that dot is neither the first nor the
last character of the name. -/
def pathSuffix (name : List Char) : List Char :=
  match rfindIdx '.' name with
  | some i => if 0 < i ∧ i < name.length - 1 then name.drop i else []
  | none => []

/-- `pathlib.PurePath.with_suffix` for a bare file name: drop the old suffix
(if any) and append the new one. -/
def withSuffix (name ext : List Char) : List Char :=
  let old := pathSuffix name
  if old = [] then name ++ ext else name.take (name.length - old.length) ++ ext

/-- The path probed by `get_image_path` (src line 15):
`Path('myIcon_' + project_name).with_suffix('.ico')`. -/
def iconCandidate (project_name : String) : String :=
  String.mk (withSuffix ("myIcon_" ++ project_name).data ".ico".data)

/-- `get_image_path` (src line 15): the candidate path when that file exists,
`None` otherwise. `fs` is the set of existing files. -/
def get_image_path (fs : List String) (project_name : String) : Option String :=
  if iconCandidate project_name ∈ fs then some (iconCandidate project_name) else none

/-- `OrderedDict` assignment `d[k] = v`: keeps the original slot when `k` is
already present, else appends at the end. -/
def odInsert {β : Type} (k : String) (v : β) (d : List (String × β)) : List (String × β) :=
  if d.any (fun kv => kv.1 == k) then
    d.map (fun kv => if kv.1 == k then (k, v) else kv)
  else d ++ [(k, v)]

/-- `OrderedDict` lookup `d[k]` (first, hence unique, matching slot). -/
def odGet {β : Type} (d : List (String × β)) (k : String) : Option β :=
  match d with
  | [] => none
  | kv :: rest => if kv.1 = k then some kv.2 else odGet rest k

/-- `Project` (src line 156). A work-package is stored exactly as in the
source: `workpackages[wp_id] = (wp_name, wp_icon)`. -/
structure Project where
  id : String
  name : String
  icon : Option String
  workpackages : List (String × (String × Option String))
deriving DecidableEq

/-- `Project.__init__` (src line 157). -/
def Project.init (fs : List String) (identifier : String) (wps : List String) : Project :=
  let idn := get_id_name identifier
  { id := idn.1
    name := idn.2
    icon := get_image_path fs idn.2
    workpackages :=
      wps.foldl (fun d wp =>
        let wpn := get_id_name wp
        odInsert wpn.1 (wpn.2, get_image_path fs wpn.2) d) [] }

/-- `Project.get_wp_icon` (src line 171). -/
def Project.get_wp_icon (p : Project) (key : Option String) : Option String :=
  match key with
  | some k =>
    match odGet p.workpackages k with
    | some wpv =>
      match wpv.2 with
      | some i => some i
      | none => p.icon
    | none => p.icon
  | none => p.icon

/-- `Project.get_id` (src line 178). -/
def Project.get_id (p : Project) (wp : Option String) : String :=
  match wp with
  | none =>
    match p.workpackages with
    | [] => p.id
    | w :: _ => p.id ++ ":" ++ w.1
  | some w => p.id ++ ":" ++ w

/-- A menu / selection key: in the source either a bare string (project slot)
or a `(project, workpackage)` tuple. -/
inductive Key where
  | projectOnly (pid : String)
  | projectWp (pid : String) (wid : String)
deriving DecidableEq

/-- The Python exceptions that can escape the modelled operations. -/
inductive PyError where
  | keyError
  | imageError
  | ioError
deriving DecidableEq

/-- `PIL.Image.open`: an image is identified with the path it was opened
from; opening `None` raises. -/
def imageOpen (path : Option String) : Except PyError String :=
  match path with
  | some p => Except.ok p
  | none => Except.error PyError.imageError

/-- Observable state of a `PrjTray` object together with its environment: the
current selection, the icon shown in the tray, the cached fallback image, the
lines in the log sink and the lines printed to the console. -/
structure TrayState where
  project : Key
  trayIcon : String
  fallback_icon : String
  log : List String
  console : List String
deriving DecidableEq

/-- `PrjTray.get_project` (src line 87): catalog lookup for a key; a missing
project id raises `KeyError` (modelled as `none`). -/
def get_project (projects : List (String × Project)) (key : Key) :
    Option (Project × Option String) :=
  match key with
  | Key.projectOnly pid => (odGet projects pid).map (fun p => (p, none))
  | Key.projectWp pid wid => (odGet projects pid).map (fun p => (p, some wid))

/-- `PrjTray.log_change` (src line 137): print the record, then append it with
a trailing newline to the sink; a failing sink (`sinkOk = false`) raises after
the scoped file handle is released. -/
def log_change (sinkOk : Bool) (ts : String) (s : TrayState) (info : String) :
    TrayState × Option PyError :=
  let log_text := ts ++ " -- changed <" ++ info ++ ">"
  let s1 := { s with console := s.console ++ [log_text] }
  if sinkOk then ({ s1 with log := s1.log ++ [log_text ++ "\n"] }, none)
  else (s1, some PyError.ioError)

/-- `PrjTray.change_project` (src line 116): set `self.project`, look the key
up, pick the icon (work-package / project icon when available, else the cached
fallback image), show it, then log the change. -/
def change_project (projects : List (String × Project)) (sinkOk : Bool) (ts : String)
    (s : TrayState) (new_key : Key) : TrayState × Option PyError :=
  let s1 := { s with project := new_key }
  match get_project projects new_key with
  | none => (s1, some PyError.keyError)
  | some pw =>
    let icon_path := pw.1.get_wp_icon pw.2
    let s2 :=
      match icon_path with
      | some ip => { s1 with trayIcon := ip }
      | none => { s1 with console := s1.console ++ ["Icon fallback"], trayIcon := s1.fallback_icon }
    log_change sinkOk ts s2 (pw.1.get_id pw.2)

/-- `PrjTray.on_click` (src line 105): a click on the currently selected key
only prints a diagnostic; otherwise run `change_project`. -/
def on_click (projects : List (String × Project)) (sinkOk : Bool) (ts : String)
    (s : TrayState) (key : Key) : TrayState × Option PyError :=
  if s.project = key then ({ s with console := s.console ++ ["No change"] }, none)
  else change_project projects sinkOk ts s key

/-- `PrjTray.__init__` (src line 26): resolve the default key, open its icon
(cached as the fallback image), then run the initial `change_project(default)`.
An unresolvable key or a missing image raises. -/
def PrjTray.init (sinkOk : Bool) (ts : String) (projects : List (String × Project))
    (default : Key) : Except PyError TrayState :=
  match get_project projects default with
  | none => Except.error PyError.keyError
  | some pw =>
    match imageOpen (pw.1.get_wp_icon pw.2) with
    | Except.error e => Except.error e
    | Except.ok image =>
      let s : TrayState :=
        { project := default, trayIcon := image, fallback_icon := image
          log := [], console := [] }
      match change_project projects sinkOk ts s default with
      | (s1, none) => Except.ok s1
      | (_, some e) => Except.error e

/-- Catalog construction in the main script (src line 222):
`projects[p.id] = Project(k, v)` over the config entries in order. -/
def buildCatalog (fs : List String) (conf : List (String × List String)) :
    List (String × Project) :=
  conf.foldl (fun d kv =>
    let p := Project.init fs kv.1 kv.2
    odInsert p.id p d) []

/-- Process-start default selection (src line 228): take the first project in
iteration order; a tuple of its id and its first work-package id when it has
more than one work-package, otherwise the bare project *name* (src line 233).
`none` on an empty catalog (`StopIteration`). -/
def computeDefault (projects : List (String × Project)) : Option Key :=
  match projects with
  | [] => none
  | kv :: _ =>
    match kv.2.workpackages with
    | w1 :: _ :: _ => some (Key.projectWp kv.2.id w1.1)
    | _ => some (Key.projectOnly kv.2.name)

/-- Shape of a generated `pystray` menu entry. A selectable leaf carries its
label and the key its `on_click` / `is_selected` callbacks close over. -/
inductive MenuEntry where
  | leaf (label : String) (key : Key)
  | submenu (label : String) (items : List MenuEntry)
  | separator
  | action (label : String)

/-- Inner loop of `make_menu` (src line 50): one radio leaf per work-package. -/
def wpMenuItems (pid : String) (wps : List (String × (String × Option String))) :
    List MenuEntry :=
  wps.foldl (fun sacc w => sacc ++ [MenuEntry.leaf w.2.1 (Key.projectWp pid w.1)]) []

/-- Body of the outer `make_menu` loop (src line 46): a submenu for a project
with more than one work-package, a top-level radio leaf otherwise. -/
def menuStep (acc : List MenuEntry) (kv : String × Project) : List MenuEntry :=
  if kv.2.workpackages.length > 1 then
    acc ++ [MenuEntry.submenu kv.2.name (wpMenuItems kv.1 kv.2.workpackages)]
  else
    acc ++ [MenuEntry.leaf kv.2.name (Key.projectOnly kv.1)]

/-- `PrjTray.make_menu` (src line 43). -/
def make_menu (projects : List (String × Project)) : List MenuEntry :=
  projects.foldl menuStep [] ++ [MenuEntry.separator, MenuEntry.action "Quit"]

/-- Spec-side definition (spec section 4.2), stated from the spec's words for
comparison with the code path: the work-package's icon when the key names a
work-package that has one, else the project's icon when present, else the
cached fallback. -/
def iconPrecedence (p : Project) (wp : Option String) (fb : String) : String :=
  match wp with
  | some wid =>
    match odGet p.workpackages wid with
    | some wpv =>
      match wpv.2 with
      | some i => i
      | none => match p.icon with | some pi => pi | none => fb
    | none => match p.icon with | some pi => pi | none => fb
  | none => match p.icon with | some pi => pi | none => fb

/-- Spec-side definition (spec sections 4.5 and 8), for comparison with
`make_menu`: the entry the menu should contain for one catalog slot, keyed by
the project's id. -/
def projectEntrySpec (kv : String × Project) : MenuEntry :=
  if kv.2.workpackages.length > 1 then
    MenuEntry.submenu kv.2.name
      (kv.2.workpackages.map (fun w => MenuEntry.leaf w.2.1 (Key.projectWp kv.2.id w.1)))
  else MenuEntry.leaf kv.2.name (Key.projectOnly kv.2.id)

/-- Discriminator: is this entry the separator? -/
def MenuEntry.isSep : MenuEntry → Bool
  | MenuEntry.separator => true
  | _ => false

/-- Discriminator: is this entry the Quit action? -/
def MenuEntry.isQuitItem : MenuEntry → Bool
  | MenuEntry.action l => l == "Quit"
  | _ => false

/-! Helper lemmas shared by several claim theorems. -/

theorem splitAux_of_not_mem (c : Char) :
    ∀ (l : List Char), c ∉ l → splitAux c l = (l, []) := by
  intro l
  induction l with
  | nil => intro _; rfl
  | cons x xs ih =>
    intro h
    rw [List.mem_cons, not_or] at h
    have hx : ¬ x = c := fun e => h.1 e.symm
    simp [splitAux, hx, ih h.2]

theorem rfindIdx_of_not_mem (c : Char) :
    ∀ (l : List Char), c ∉ l → rfindIdx c l = none := by
  intro l
  induction l with
  | nil => intro _; rfl
  | cons x xs ih =>
    intro h
    rw [List.mem_cons, not_or] at h
    have hx : ¬ x = c := fun e => h.1 e.symm
    simp [rfindIdx, ih h.2, hx]

theorem withSuffix_of_no_dot (l ext : List Char) (h : '.' ∉ l) :
    withSuffix l ext = l ++ ext := by
  simp [withSuffix, pathSuffix, rfindIdx_of_not_mem '.' l h]

/-! Claim theorems. -/

/-- C1: the spec says the process-start default for a first project with at
most one work-package is `ProjectOnly(project.id)`. The code instead uses the
project's display *name* (src line 233): on the config
`{"100-Alpha": ["1-Setup"]}` the computed default is `ProjectOnly "Alpha"`,
which is not a key of the catalog (keyed by id `"100"`), so the startup
lookup `self.projects[...]` raises `KeyError`. The multi-work-package branch
matches the claim. -/
theorem c1_default_uses_name :
    computeDefault (buildCatalog [] [("100-Alpha", ["1-Setup"])]) =
      some (Key.projectOnly "Alpha") ∧
    get_project (buildCatalog [] [("100-Alpha", ["1-Setup"])]) (Key.projectOnly "Alpha") =
      none ∧
    get_project (buildCatalog [] [("100-Alpha", ["1-Setup"])]) (Key.projectOnly "100") ≠
      none ∧
    computeDefault (buildCatalog [] [("100-Alpha", ["1-Setup", "2-Build"])]) =
      some (Key.projectWp "100" "1") :=
  ⟨rfl, rfl, by decide, rfl⟩

/-- C5: a click whose key structurally equals the current selection is a
no-op: the state is unchanged except for the diagnostic console line
`"No change"`, no icon update, no log write, no error. -/
theorem c5_noop (projects : List (String × Project)) (sinkOk : Bool) (ts : String)
    (s : TrayState) (k : Key) (hcur : s.project = k) :
    on_click projects sinkOk ts s k =
      ({ s with console := s.console ++ ["No change"] }, none) := by
  simp [on_click, hcur]

/-- C5 witness: the no-op click at a concrete state. -/
theorem c5_noop_witness :
    on_click [] true "T" ⟨Key.projectOnly "X", "i", "i", [], []⟩ (Key.projectOnly "X") =
      ({ project := Key.projectOnly "X", trayIcon := "i", fallback_icon := "i",
         log := [], console := ["No change"] }, none) :=
  c5_noop [] true "T" ⟨Key.projectOnly "X", "i", "i", [], []⟩ (Key.projectOnly "X") rfl

/-- C6: identifier parsing splits on the dash and returns (first segment,
last segment), discarding middle segments; a string with no dash gives
id = name = the whole string, and the function is total (no parse error).
`"A-B-C"` gives `("A", "C")`, `"A-B"` gives `("A", "B")`, `"X"` gives
`("X", "X")`. -/
theorem c6_get_id_name :
    (∀ s : String, get_id_name s =
      (String.mk ((splitOnChar '-' s.data).headD []),
       String.mk ((splitOnChar '-' s.data).getLastD []))) ∧
    (∀ s : String, '-' ∉ s.data → get_id_name s = (s, s)) ∧
    get_id_name "A-B-C" = ("A", "C") ∧
    get_id_name "A-B" = ("A", "B") ∧
    get_id_name "X" = ("X", "X") := by
  refine ⟨fun s => rfl, fun s h => ?_, rfl, rfl, rfl⟩
  obtain ⟨d⟩ := s
  have h' : '-' ∉ d := h
  simp [get_id_name, splitOnChar, splitAux_of_not_mem '-' d h']

/-- C6 witness: the dash-free case at a concrete input. -/
theorem c6_get_id_name_witness :
    '-' ∉ "QQ".data ∧ get_id_name "QQ" = ("QQ", "QQ") :=
  ⟨by decide, c6_get_id_name.2.1 "QQ" (by decide)⟩

/-- C9 (amended): the probed candidate is
`Path('myIcon_' + X).with_suffix('.ico')`; when the display name `X` contains
no dot this is exactly `myIcon_X.ico`, and the resolved icon is that path
precisely when the file exists. (For names with a dot, `with_suffix` replaces
the name's existing dot-suffix, see the counterexample.) -/
theorem c9_icon_candidate (X : String) (fs : List String) (h : '.' ∉ X.data) :
    iconCandidate X = "myIcon_" ++ X ++ ".ico" ∧
    get_image_path fs X =
      (if ("myIcon_" ++ X ++ ".ico") ∈ fs then some ("myIcon_" ++ X ++ ".ico") else none) := by
  obtain ⟨d⟩ := X
  have h' : '.' ∉ d := h
  have hm : '.' ∉ ("myIcon_" ++ String.mk d).data := by
    show '.' ∉ ("myIcon_".data ++ d)
    rw [List.mem_append]
    rintro (hc | hc)
    · exact absurd hc (by decide)
    · exact h' hc
  have h1 : iconCandidate (String.mk d) = "myIcon_" ++ String.mk d ++ ".ico" := by
    show String.mk (withSuffix ("myIcon_" ++ String.mk d).data ".ico".data) = _
    rw [withSuffix_of_no_dot _ _ hm]
    rfl
  refine ⟨h1, ?_⟩
  simp only [get_image_path, h1]

/-- C9 witness: the dot-free case at a concrete name and filesystem. -/
theorem c9_icon_candidate_witness :
    '.' ∉ "Alpha".data ∧
    iconCandidate "Alpha" = "myIcon_Alpha.ico" ∧
    get_image_path ["myIcon_Alpha.ico"] "Alpha" = some "myIcon_Alpha.ico" := by
  have h := c9_icon_candidate "Alpha" ["myIcon_Alpha.ico"] (by decide)
  refine ⟨by decide, ?_, ?_⟩
  · rw [h.1]; decide
  · rw [h.2]; decide

/-- C9 counterexample: for the display name `"a.b"` the probed file is
`myIcon_a.ico`, not `myIcon_a.b.ico` — `with_suffix` replaces the name's
dot-suffix — and even when `myIcon_a.b.ico` exists the resolution returns
`None`, refuting the claim as stated. -/
theorem c9_dot_in_name :
    iconCandidate "a.b" = "myIcon_a.ico" ∧
    iconCandidate "a.b" ≠ "myIcon_a.b.ico" ∧
    get_image_path ["myIcon_a.b.ico"] "a.b" = none :=
  ⟨rfl, by decide, rfl⟩

/-- The code's icon choice in `change_project` (work-package icon via
`get_wp_icon`, else the cached fallback) equals the spec's fallback
precedence. -/
theorem get_wp_icon_precedence (p : Project) (wp : Option String) (fb : String) :
    (p.get_wp_icon wp).getD fb = iconPrecedence p wp fb := by
  cases wp with
  | none =>
    simp only [Project.get_wp_icon, iconPrecedence]
    cases p.icon <;> rfl
  | some wid =>
    simp only [Project.get_wp_icon, iconPrecedence]
    cases hw : odGet p.workpackages wid with
    | none => cases p.icon <;> rfl
    | some wpv =>
      obtain ⟨wn, wi⟩ := wpv
      cases wi with
      | none => cases p.icon <;> rfl
      | some i => rfl

/-- Componentwise characterization of `change_project` for a key that
resolves in the catalog, for both a working and a failing log sink. -/
theorem change_project_spec (projects : List (String × Project)) (sinkOk : Bool)
    (ts : String) (s : TrayState) (k : Key) (p : Project) (wp : Option String)
    (hk : get_project projects k = some (p, wp)) :
    (change_project projects sinkOk ts s k).1.project = k ∧
    (change_project projects sinkOk ts s k).1.trayIcon = iconPrecedence p wp s.fallback_icon ∧
    (change_project projects sinkOk ts s k).1.fallback_icon = s.fallback_icon ∧
    (change_project projects sinkOk ts s k).1.log =
      (if sinkOk then s.log ++ [ts ++ " -- changed <" ++ p.get_id wp ++ ">" ++ "\n"]
       else s.log) ∧
    (change_project projects sinkOk ts s k).1.console =
      s.console ++
        (match p.get_wp_icon wp with | none => ["Icon fallback"] | some _ => []) ++
        [ts ++ " -- changed <" ++ p.get_id wp ++ ">"] ∧
    (change_project projects sinkOk ts s k).2 =
      (if sinkOk then none else some PyError.ioError) := by
  have hpre := get_wp_icon_precedence p wp s.fallback_icon
  cases hio : p.get_wp_icon wp with
  | some ip =>
    rw [hio] at hpre
    simp only [Option.getD_some] at hpre
    cases sinkOk <;>
      simp [change_project, hk, hio, log_change, ← hpre, List.append_assoc]
  | none =>
    rw [hio] at hpre
    simp only [Option.getD_none] at hpre
    cases sinkOk <;>
      simp [change_project, hk, hio, log_change, ← hpre, List.append_assoc]

/-- C4: a transition to a valid key different from the current selection sets
the current selection to that key, appends exactly one log line, and displays
the icon given by the spec's fallback precedence (work-package icon, else
project icon, else the cached startup fallback). -/
theorem c4_transition (projects : List (String × Project)) (ts : String)
    (s : TrayState) (k : Key) (p : Project) (wp : Option String)
    (hk : get_project projects k = some (p, wp)) (hne : s.project ≠ k) :
    (on_click projects true ts s k).2 = none ∧
    (on_click projects true ts s k).1.project = k ∧
    (on_click projects true ts s k).1.log =
      s.log ++ [ts ++ " -- changed <" ++ p.get_id wp ++ ">" ++ "\n"] ∧
    (on_click projects true ts s k).1.trayIcon = iconPrecedence p wp s.fallback_icon := by
  have hoc : on_click projects true ts s k = change_project projects true ts s k := by
    simp [on_click, hne]
  have h := change_project_spec projects true ts s k p wp hk
  rw [hoc]
  exact ⟨by simpa using h.2.2.2.2.2, h.1, by simpa using h.2.2.2.1, h.2.1⟩

/-- C4 witness: a concrete transition (no icon files, so the cached fallback
is shown and the log line names project and work-package). -/
theorem c4_transition_witness :
    (on_click (buildCatalog [] [("X", ["a", "b"])]) true "T"
        ⟨Key.projectOnly "Z", "fb", "fb", [], []⟩ (Key.projectWp "X" "a")).2 = none ∧
    (on_click (buildCatalog [] [("X", ["a", "b"])]) true "T"
        ⟨Key.projectOnly "Z", "fb", "fb", [], []⟩ (Key.projectWp "X" "a")).1.project =
      Key.projectWp "X" "a" ∧
    (on_click (buildCatalog [] [("X", ["a", "b"])]) true "T"
        ⟨Key.projectOnly "Z", "fb", "fb", [], []⟩ (Key.projectWp "X" "a")).1.log =
      ["T -- changed <X:a>\n"] ∧
    (on_click (buildCatalog [] [("X", ["a", "b"])]) true "T"
        ⟨Key.projectOnly "Z", "fb", "fb", [], []⟩ (Key.projectWp "X" "a")).1.trayIcon =
      "fb" := by
  have h := c4_transition (buildCatalog [] [("X", ["a", "b"])]) "T"
      ⟨Key.projectOnly "Z", "fb", "fb", [], []⟩ (Key.projectWp "X" "a")
      (Project.init [] "X" ["a", "b"]) (some "a") (by decide) (by decide)
  refine ⟨h.1, h.2.1, ?_, ?_⟩
  · rw [h.2.2.1]; decide
  · rw [h.2.2.2]; decide

/-- C2 (amended): constructing the tray session succeeds exactly when the
computed default key resolves in the catalog and its icon chain yields an
actual icon path; in that case the state has the default as current
selection, that icon displayed and cached as fallback, and one startup log
line. (When the key does not resolve, `self.projects[...]` raises `KeyError`;
when no icon exists for the default, `Image.open(None)` raises — see the
counterexample.) -/
theorem c2_init_ok (ts : String) (projects : List (String × Project)) (dk : Key)
    (p : Project) (wp : Option String) (ip : String)
    (hk : get_project projects dk = some (p, wp))
    (hi : p.get_wp_icon wp = some ip) :
    PrjTray.init true ts projects dk =
      Except.ok
        { project := dk, trayIcon := ip, fallback_icon := ip,
          log := [ts ++ " -- changed <" ++ p.get_id wp ++ ">" ++ "\n"],
          console := [ts ++ " -- changed <" ++ p.get_id wp ++ ">"] } := by
  simp [PrjTray.init, hk, hi, imageOpen, change_project, log_change]

/-- C2 witness: a concrete catalog whose default resolves and has an icon
file; construction succeeds with the expected state. -/
theorem c2_init_ok_witness :
    PrjTray.init true "T" (buildCatalog ["myIcon_X.ico"] [("X", [])])
        (Key.projectOnly "X") =
      Except.ok
        { project := Key.projectOnly "X", trayIcon := "myIcon_X.ico",
          fallback_icon := "myIcon_X.ico",
          log := ["T -- changed <X>\n"], console := ["T -- changed <X>"] } := by
  have h := c2_init_ok "T" (buildCatalog ["myIcon_X.ico"] [("X", [])])
      (Key.projectOnly "X") (Project.init ["myIcon_X.ico"] "X" []) none "myIcon_X.ico"
      (by decide) (by decide)
  rw [h]
  exact congrArg Except.ok (by decide)

/-- C2 counterexample: a non-empty catalog (single project `"X"`, no
work-packages, no icon file) whose construction with the computed default
raises: `Image.open` is called on `None` because neither the project nor any
work-package has an icon and no fallback is cached yet at startup. -/
theorem c2_init_fails :
    buildCatalog [] [("X", [])] ≠ [] ∧
    computeDefault (buildCatalog [] [("X", [])]) = some (Key.projectOnly "X") ∧
    PrjTray.init true "T" (buildCatalog [] [("X", [])]) (Key.projectOnly "X") =
      Except.error PyError.imageError :=
  ⟨by decide, rfl, rfl⟩

/-- C3 (amended): when the log-sink append fails during a selection change,
the in-memory current selection, the displayed icon and the console report of
the change have already been updated before the write and remain so, the sink
gains no line, and a later selection change with a working sink proceeds
normally; but the core installs no handler — the exception propagates out of
`change_project` (modelled as the returned `ioError`) instead of being caught
and reported there. -/
theorem c3_state_before_log (projects : List (String × Project)) (ts ts2 : String)
    (s : TrayState) (k k2 : Key) (p p2 : Project) (wp wp2 : Option String)
    (hk : get_project projects k = some (p, wp))
    (hk2 : get_project projects k2 = some (p2, wp2)) :
    (change_project projects false ts s k).2 = some PyError.ioError ∧
    (change_project projects false ts s k).1.project = k ∧
    (change_project projects false ts s k).1.trayIcon = iconPrecedence p wp s.fallback_icon ∧
    (change_project projects false ts s k).1.log = s.log ∧
    (change_project projects false ts s k).1.console =
      s.console ++
        (match p.get_wp_icon wp with | none => ["Icon fallback"] | some _ => []) ++
        [ts ++ " -- changed <" ++ p.get_id wp ++ ">"] ∧
    (change_project projects true ts2 (change_project projects false ts s k).1 k2).2 =
      none := by
  have h := change_project_spec projects false ts s k p wp hk
  have h2 := change_project_spec projects true ts2
      (change_project projects false ts s k).1 k2 p2 wp2 hk2
  exact ⟨by simpa using h.2.2.2.2.2, h.1, h.2.1, by simpa using h.2.2.2.1,
    h.2.2.2.2.1, by simpa using h2.2.2.2.2.2⟩

/-- C3 witness: a concrete failing append — the state keeps the new
selection and icon, the sink keeps no partial line, the change was printed,
the error escapes, and a following change with a working sink succeeds. -/
theorem c3_state_before_log_witness :
    (change_project (buildCatalog [] [("X", []), ("Y", [])]) false "T"
        ⟨Key.projectOnly "Y", "fb", "fb", [], []⟩ (Key.projectOnly "X")).2 =
      some PyError.ioError ∧
    (change_project (buildCatalog [] [("X", []), ("Y", [])]) false "T"
        ⟨Key.projectOnly "Y", "fb", "fb", [], []⟩ (Key.projectOnly "X")).1.project =
      Key.projectOnly "X" ∧
    (change_project (buildCatalog [] [("X", []), ("Y", [])]) false "T"
        ⟨Key.projectOnly "Y", "fb", "fb", [], []⟩ (Key.projectOnly "X")).1.trayIcon = "fb" ∧
    (change_project (buildCatalog [] [("X", []), ("Y", [])]) false "T"
        ⟨Key.projectOnly "Y", "fb", "fb", [], []⟩ (Key.projectOnly "X")).1.log = [] ∧
    (change_project (buildCatalog [] [("X", []), ("Y", [])]) true "U"
        (change_project (buildCatalog [] [("X", []), ("Y", [])]) false "T"
          ⟨Key.projectOnly "Y", "fb", "fb", [], []⟩ (Key.projectOnly "X")).1
        (Key.projectOnly "Y")).2 = none := by
  have h := c3_state_before_log (buildCatalog [] [("X", []), ("Y", [])]) "T" "U"
      ⟨Key.projectOnly "Y", "fb", "fb", [], []⟩ (Key.projectOnly "X") (Key.projectOnly "Y")
      (Project.init [] "X" []) (Project.init [] "Y" []) none none
      (by decide) (by decide)
  refine ⟨h.1, h.2.1, ?_, ?_, h.2.2.2.2.2⟩
  · rw [h.2.2.1]; decide
  · rw [h.2.2.2.1]

/-- C3 counterexample: the claim says a failed append is reported but not
propagated; in the code `log_change` has no handler, so at a concrete input
the exception escapes `change_project` (the call returns the `IOError`
instead of handling it). -/
theorem c3_error_escapes :
    (change_project (buildCatalog [] [("X", [])]) false "T"
        ⟨Key.projectOnly "Z", "fb", "fb", [], []⟩ (Key.projectOnly "X")).2 =
      some PyError.ioError :=
  rfl

/-- C7: a change record is one line `<timestamp> -- changed <label>` appended
with a trailing newline, and the label is the bare project id when the
project has no work-packages and none is named, `id:firstWpId` when it has
work-packages but only the project is named, and `id:wpId` when a
work-package is named. -/
theorem c7_log_record (ts info : String) (s : TrayState) (p : Project) :
    (log_change true ts s info).1.log =
      s.log ++ [ts ++ " -- changed <" ++ info ++ ">" ++ "\n"] ∧
    (log_change true ts s info).2 = none ∧
    (p.workpackages = [] → p.get_id none = p.id) ∧
    (∀ w ws, p.workpackages = w :: ws → p.get_id none = p.id ++ ":" ++ w.1) ∧
    (∀ wid, p.get_id (some wid) = p.id ++ ":" ++ wid) := by
  refine ⟨by simp [log_change], by simp [log_change], fun h => by simp [Project.get_id, h],
    fun w ws h => by simp [Project.get_id, h], fun wid => rfl⟩

/-- C7 witness: concrete log line and the three label shapes. -/
theorem c7_log_record_witness :
    (log_change true "2024-01-02 03:04:05" ⟨Key.projectOnly "X", "i", "i", [], []⟩
        "100:1").1.log = ["2024-01-02 03:04:05 -- changed <100:1>\n"] ∧
    (Project.init [] "200-Beta" []).get_id none = "200" ∧
    (Project.init [] "100-Alpha" ["1-Setup"]).get_id none = "100:1" ∧
    (Project.init [] "100-Alpha" ["1-Setup"]).get_id (some "2") = "100:2" := by
  have h1 := c7_log_record "2024-01-02 03:04:05" "100:1"
      ⟨Key.projectOnly "X", "i", "i", [], []⟩ (Project.init [] "200-Beta" [])
  have h2 := c7_log_record "2024-01-02 03:04:05" "100:1"
      ⟨Key.projectOnly "X", "i", "i", [], []⟩ (Project.init [] "100-Alpha" ["1-Setup"])
  refine ⟨?_, ?_, ?_, ?_⟩
  · rw [h1.1]; decide
  · rw [h1.2.2.1 (by decide)]; decide
  · rw [h2.2.2.2.1 ("1", ("Setup", none)) [] (by decide)]; decide
  · rw [h2.2.2.2.2 "2"]; decide

theorem wpMenuItems_aux (pid : String) :
    ∀ (wps : List (String × (String × Option String))) (acc : List MenuEntry),
      wps.foldl (fun sacc w => sacc ++ [MenuEntry.leaf w.2.1 (Key.projectWp pid w.1)]) acc =
        acc ++ wps.map (fun w => MenuEntry.leaf w.2.1 (Key.projectWp pid w.1)) := by
  intro wps
  induction wps with
  | nil => intro acc; simp
  | cons w t ih => intro acc; simp [List.foldl_cons, ih]

theorem wpMenuItems_eq (pid : String) (wps : List (String × (String × Option String))) :
    wpMenuItems pid wps = wps.map (fun w => MenuEntry.leaf w.2.1 (Key.projectWp pid w.1)) := by
  simpa using wpMenuItems_aux pid wps []

theorem menuStep_eq (acc : List MenuEntry) (kv : String × Project) (h : kv.1 = kv.2.id) :
    menuStep acc kv = acc ++ [projectEntrySpec kv] := by
  by_cases hl : kv.2.workpackages.length > 1
  · simp [menuStep, projectEntrySpec, hl, wpMenuItems_eq, h]
  · simp [menuStep, projectEntrySpec, hl, h]

theorem menu_foldl_eq :
    ∀ (l : List (String × Project)) (acc : List MenuEntry),
      (∀ kv ∈ l, kv.1 = kv.2.id) →
      l.foldl menuStep acc = acc ++ l.map projectEntrySpec := by
  intro l
  induction l with
  | nil => intro acc _; simp
  | cons kv t ih =>
    intro acc h
    have hkv : kv.1 = kv.2.id := h kv (List.mem_cons_self kv t)
    have ht : ∀ x ∈ t, x.1 = x.2.id := fun x hx => h x (List.mem_cons_of_mem kv hx)
    rw [List.foldl_cons, menuStep_eq acc kv hkv, ih _ ht]
    simp

/-- C8: for a catalog whose slots are keyed by the project ids (as built by
the main script), the menu is, in catalog order, one top-level leaf keyed
`ProjectOnly(project.id)` per project with at most one work-package and one
submenu (one leaf per work-package, keyed
`ProjectWorkPackage(project.id, wp.id)`, in catalog order) per project with
two or more, followed by exactly one separator and exactly one Quit entry. -/
theorem c8_menu_shape (projects : List (String × Project))
    (h : ∀ kv ∈ projects, kv.1 = kv.2.id) :
    make_menu projects =
      projects.map projectEntrySpec ++ [MenuEntry.separator, MenuEntry.action "Quit"] ∧
    (make_menu projects).countP MenuEntry.isSep = 1 ∧
    (make_menu projects).countP MenuEntry.isQuitItem = 1 := by
  have hm : make_menu projects =
      projects.map projectEntrySpec ++ [MenuEntry.separator, MenuEntry.action "Quit"] := by
    unfold make_menu
    rw [menu_foldl_eq projects [] h]
    simp
  have hsep : (projects.map projectEntrySpec).countP MenuEntry.isSep = 0 := by
    rw [List.countP_eq_zero]
    intro a ha
    obtain ⟨kv, _, rfl⟩ := List.mem_map.mp ha
    unfold projectEntrySpec
    split <;> simp [MenuEntry.isSep]
  have hquit : (projects.map projectEntrySpec).countP MenuEntry.isQuitItem = 0 := by
    rw [List.countP_eq_zero]
    intro a ha
    obtain ⟨kv, _, rfl⟩ := List.mem_map.mp ha
    unfold projectEntrySpec
    split <;> simp [MenuEntry.isQuitItem]
  refine ⟨hm, ?_, ?_⟩
  · rw [hm, List.countP_append, hsep]; rfl
  · rw [hm, List.countP_append, hquit]; rfl

/-- C8 witness: the menu of a concrete two-project catalog. -/
theorem c8_menu_shape_witness :
    make_menu (buildCatalog [] [("100-Alpha", ["1-Setup", "2-Build"]), ("200-Beta", [])]) =
      (buildCatalog [] [("100-Alpha", ["1-Setup", "2-Build"]), ("200-Beta", [])]).map
        projectEntrySpec ++ [MenuEntry.separator, MenuEntry.action "Quit"] ∧
    (make_menu (buildCatalog []
        [("100-Alpha", ["1-Setup", "2-Build"]), ("200-Beta", [])])).countP
      MenuEntry.isSep = 1 ∧
    (make_menu (buildCatalog []
        [("100-Alpha", ["1-Setup", "2-Build"]), ("200-Beta", [])])).countP
      MenuEntry.isQuitItem = 1 :=
  c8_menu_shape (buildCatalog [] [("100-Alpha", ["1-Setup", "2-Build"]), ("200-Beta", [])])
    (by decide)

end PrjTrx
